import Mathlib

/-!
Shallow embedding of the parallel agent-fork orchestration subsystem of the
dinbutler repository (`apps/sandbox_workflows/modules/`): security hooks
(`hooks.py`), configuration constants (`constants.py`), the agent turn loop and
tool implementations (`agents.py`), and the fork orchestrator (`forks.py`),
together with theorems settling the specification claims about them.

Python strings are modelled as Lean `String`, filesystem paths as lists of path
components (`List String`, absolute, root = `[]`), dictionaries of tool
parameters as a structure of optional fields, and exceptions as `Except`.
-/

namespace Dinbutler

/-! ### Constants (`modules/constants.py`) -/

/-- Constant `MAX_FORKS = 100`. -/
def MAX_FORKS : Nat := 100

/-- Constant `MAX_AGENT_TURNS = 100`. -/
def MAX_AGENT_TURNS : Nat := 100

/-- Constant `MAX_TOOL_CALLS_PER_TURN = 50`. -/
def MAX_TOOL_CALLS_PER_TURN : Nat := 50

/-- Constant `MAX_FILE_SIZE_MB = 100`. -/
def MAX_FILE_SIZE_MB : Nat := 100

/-- Constant `STRICT_PATH_VALIDATION = True`. -/
def STRICT_PATH_VALIDATION : Bool := true

/-- Constant `ALLOWED_PATHS` from `constants.py`. -/
def ALLOWED_PATHS : List String :=
  ["temp/", "specs/", "workspace/", "src/", "tests/", "docs/", "scripts/",
   "config/", "data/"]

/-- Constant `BLOCKED_COMMANDS` from `constants.py` (the fork-bomb entry's braces are
written with hex escapes; the string value is unchanged). -/
def BLOCKED_COMMANDS : List String :=
  ["rm -rf /", "rm -rf /*", "sudo rm", "mkfs", "dd if=", ":()\x7b :|:& \x7d;:",
   "chmod 000", "chown root", "mkfs.ext4", "fdisk", "parted", "shutdown",
   "reboot", "halt", "poweroff"]

/-- Constant `BLOCKED_COMMAND_PATTERNS` from `constants.py`: the raw regex source
strings, kept verbatim for membership statements. -/
def BLOCKED_COMMAND_PATTERNS : List String :=
  ["rm\\s+-rf\\s+/", "sudo\\s+rm", "mkfs", "dd\\s+if=", "chmod\\s+000",
   "shutdown", "reboot", "halt", "poweroff"]

/-- Each entry of `BLOCKED_COMMAND_PATTERNS` is of the shape
`tok₁\s+tok₂\s+…\s+tokₙ`: literal tokens separated by `\s+`.  This is the
token decomposition used by the executable matcher below. -/
def BLOCKED_COMMAND_PATTERN_TOKENS : List (List String) :=
  [["rm", "-rf", "/"], ["sudo", "rm"], ["mkfs"], ["dd", "if="],
   ["chmod", "000"], ["shutdown"], ["reboot"], ["halt"], ["poweroff"]]

/-- Constant `BLOCKED_PATHS` from `constants.py`. -/
def BLOCKED_PATHS : List String :=
  ["/etc/", "/var/", "/usr/", "/bin/", "/sbin/", "/boot/", "/sys/", "/proc/",
   "~/.ssh/", "~/.aws/", "~/.config/"]

/-! ### Strings and substring containment

Python's `needle in haystack` on strings is contiguous-substring containment;
`containsSub` mirrors its left-to-right scan. -/

/-- Python `needle in haystack` for strings (contiguous substring test). -/
def containsSub (needle : List Char) : List Char → Bool
  | [] => needle.isEmpty
  | c :: rest => needle.isPrefixOf (c :: rest) || containsSub needle rest

/-- Function `strContains hay needle` is Python `needle in hay`. -/
def strContains (hay needle : String) : Bool :=
  containsSub needle.toList hay.toList

/-- String prefix test on the underlying character lists (the model of
Python `str.startswith` and of string-prefix comparison generally). -/
def strIsPrefixOf (p s : String) : Bool :=
  p.toList.isPrefixOf s.toList

/-- First-character test (`s.startswith(c)` for a single character). -/
def startsWithChar (c : Char) (s : String) : Bool :=
  match s.toList with
  | [] => false
  | c0 :: _ => c0 = c

/-- Python `str.lower()` on ASCII text. -/
def strToLower (s : String) : String :=
  String.mk (s.toList.map Char.toLower)

/-! ### Paths (`pathlib.Path`)

An absolute path is modelled by its list of components (root = `[]`).
`Path.resolve()` is modelled as pure normalisation (no symlinks): split on
`/`, drop empty components, process `.` and `..`. -/

/-- Split a character list on a separator character (each separator ends the
current segment). -/
def splitCharsAux (sep : Char) : List Char → List Char → List (List Char)
  | [], acc => [acc.reverse]
  | c :: rest, acc =>
    if c = sep then acc.reverse :: splitCharsAux sep rest []
    else splitCharsAux sep rest (c :: acc)

/-- Split a path string on `/`, dropping empty components (this is what
`pathlib` keeps of `"/etc/"`, `"a//b"`, ...). -/
def splitPath (s : String) : List String :=
  ((splitCharsAux '/' s.toList []).map String.mk).filter (fun c => c ≠ "")

/-- One step of `..`/`.` normalisation. -/
def normStep (acc : List String) (c : String) : List String :=
  if c = "." then acc
  else if c = ".." then acc.dropLast
  else acc ++ [c]

/-- Resolve `.` and `..` in a component list (model of `Path.resolve()`
without symlinks). -/
def normalizeComponents (cs : List String) : List String :=
  cs.foldl normStep []

/-- Model of `HookManager._resolve_path`: absolute paths resolve as themselves,
relative paths resolve against the sandbox root. -/
def resolvePath (sandboxRoot : List String) (s : String) : List String :=
  if startsWithChar '/' s then normalizeComponents (splitPath s)
  else normalizeComponents (sandboxRoot ++ splitPath s)

/-- Render a component list the way `str(Path(...))` renders a resolved
absolute path: no trailing slash (`str(Path("/etc/")) = "/etc"`). -/
def renderAbs (p : List String) : String :=
  if p.isEmpty then "/" else String.join (p.map (fun c => "/" ++ c))

/-- Model of `Path(blocked).expanduser().resolve()` for an entry of `BLOCKED_PATHS`:
a leading `~` expands to the home directory, then the path is normalised.
All entries are literal directory strings, so resolution is just splitting. -/
def resolveBlockedEntry (home : List String) (s : String) : List String :=
  if startsWithChar '~' s then
    normalizeComponents (home ++ splitPath (String.mk (s.toList.drop 1)))
  else normalizeComponents (splitPath s)

/-! ### Policy configuration

`HookManager` reads the module constants above plus its own `sandbox_root`.
The claims quantify over the policy data, so the embedding gathers everything
a validator reads into one read-only structure; `defaultConfig` instantiates
it with the values of `constants.py`. -/

structure PolicyConfig where
  sandboxRoot : List String
  /-- blocked entries, already `expanduser().resolve()`d into components -/
  blockedPaths : List (List String)
  allowedPaths : List String
  strictPathValidation : Bool
  maxFileSizeMB : Nat
  blockedCommands : List String
  /-- compiled blocked-command patterns, as `\s+`-separated token lists -/
  blockedCommandTokens : List (List String)
deriving DecidableEq

/-- The process-wide configuration of `constants.py`, for a given sandbox
root and home directory. -/
def defaultConfig (sandboxRoot home : List String) : PolicyConfig :=
  { sandboxRoot := sandboxRoot
    blockedPaths := BLOCKED_PATHS.map (resolveBlockedEntry home)
    allowedPaths := ALLOWED_PATHS
    strictPathValidation := STRICT_PATH_VALIDATION
    maxFileSizeMB := MAX_FILE_SIZE_MB
    blockedCommands := BLOCKED_COMMANDS
    blockedCommandTokens := BLOCKED_COMMAND_PATTERN_TOKENS }

/-! ### Tool parameters

A tool-call parameter dictionary; absent keys are `none`. -/

structure ToolParams where
  file_path : Option String := none
  content : Option String := none
  new_string : Option String := none
  old_string : Option String := none
  command : Option String := none
  pattern : Option String := none
  path : Option String := none
deriving DecidableEq

/-! ### `HookManager._is_blocked_path` -/

/-- Model of `HookManager._is_blocked_path`.  For each (already resolved) blocked
entry the source checks `blocked_expanded in path.parents or
path == blocked_expanded` — together: the blocked components are a
(not necessarily proper) prefix of the path components — and additionally
`path_str.startswith(str(blocked_expanded))`, a naive string-prefix test on
the rendered forms. -/
def isBlockedPath (blockedPaths : List (List String)) (path : List String) : Bool :=
  blockedPaths.any (fun blocked =>
    blocked.isPrefixOf path
      || strIsPrefixOf (renderAbs blocked) (renderAbs path))

/-! ### `HookManager._is_allowed_path` -/

/-- Python `s.rstrip("/")`. -/
def rstripSlashes (s : String) : String :=
  String.mk ((s.toList.reverse.dropWhile (fun c => c = '/')).reverse)

/-- Model of `HookManager._is_allowed_path`: compute the path relative to the sandbox
root (`relative_to` fails, i.e. returns `False`, when the root is not a
prefix), then compare the rendered relative path against the allowed
prefixes. `str(Path("."))` is `"."` when the relative part is empty. -/
def isAllowedPath (cfg : PolicyConfig) (path : List String) : Bool :=
  if cfg.sandboxRoot.isPrefixOf path then
    let rel := path.drop cfg.sandboxRoot.length
    let relStr := if rel.isEmpty then "." else String.intercalate "/" rel
    cfg.allowedPaths.any (fun allowed =>
      strIsPrefixOf allowed relStr || relStr = rstripSlashes allowed)
  else
    false

/-! ### `HookManager._validate_file_access` -/

/-- Model of `HookManager._validate_file_access`.  Missing or empty `file_path`
returns without any validation (`if not file_path: return`).  Otherwise:
blocked-path check (always enforced), then the allowed-path check (only in
strict mode), then — for Write/Edit — the size check on
`parameters.get("content", "") or parameters.get("new_string", "")`.
The float comparison `len(content.encode()) / (1024*1024) > MAX_FILE_SIZE_MB`
is exact (division by a power of two), hence modelled on byte counts. -/
def validateFileAccess (cfg : PolicyConfig) (toolName : String)
    (params : ToolParams) : Except String Unit :=
  match params.file_path with
  | none => .ok ()
  | some fp =>
    if fp = "" then .ok ()
    else
      let resolved := resolvePath cfg.sandboxRoot fp
      if isBlockedPath cfg.blockedPaths resolved then
        .error ("Access denied: " ++ fp ++ " is in a blocked system directory")
      else if cfg.strictPathValidation && !(isAllowedPath cfg resolved) then
        .error ("Access denied: " ++ fp ++ " is outside allowed directories")
      else if toolName = "Write" || toolName = "Edit" then
        let contentParam := (params.content.getD "")
        let content := if contentParam ≠ "" then contentParam
                       else params.new_string.getD ""
        if content ≠ "" && content.utf8ByteSize > cfg.maxFileSizeMB * 1024 * 1024 then
          .error "File too large"
        else .ok ()
      else .ok ()

/-! ### `HookManager._validate_bash_command`

The regex patterns are matched with `re.search` under `re.IGNORECASE`.
Every pattern is a sequence of literal tokens separated by `\s+`, and every
token begins with a non-whitespace character, so greedy whitespace
consumption is an exact model of `\s+` here. -/

/-- Python `\s` on ASCII text: space, tab, newline, carriage return,
vertical tab, form feed. -/
def isSpaceChar (c : Char) : Bool :=
  c = ' ' || c = '\t' || c = '\n' || c = '\r'
    || c = Char.ofNat 11 || c = Char.ofNat 12

/-- Consume one-or-more whitespace characters (`\s+`); `none` when the input
does not start with whitespace. -/
def dropSpaces1 (s : List Char) : Option (List Char) :=
  match s with
  | c :: rest => if isSpaceChar c then some (rest.dropWhile isSpaceChar) else none
  | [] => none

/-- Match a `\s+`-separated token pattern at the start of `s`. -/
def matchTokensAt : List String → List Char → Bool
  | [], _ => true
  | t :: ts, s =>
    t.toList.isPrefixOf s &&
      (match ts with
       | [] => true
       | _ :: _ =>
         match dropSpaces1 (s.drop t.toList.length) with
         | some rest => matchTokensAt ts rest
         | none => false)

/-- Model of `re.search`: try the pattern at every position of the string. -/
def searchTokens (tokens : List String) : List Char → Bool
  | [] => matchTokensAt tokens []
  | c :: rest => matchTokensAt tokens (c :: rest) || searchTokens tokens rest

/-- Case-insensitive `pattern.search(command)`: the tokens are lowercase, so
`re.IGNORECASE` matching equals matching against the lowercased command. -/
def regexSearch (tokens : List String) (command : String) : Bool :=
  searchTokens tokens (strToLower command).toList

/-- Model of `HookManager._validate_bash_command`: empty command returns; then exact
blocked substrings, then blocked regex patterns, then the dangerous
redirect/pipe check.  The final sandbox-escape check only logs a warning and
never raises, so it does not appear in the decision. -/
def validateBashCommand (cfg : PolicyConfig) (params : ToolParams) :
    Except String Unit :=
  let command := params.command.getD ""
  if command = "" then .ok ()
  else
    match cfg.blockedCommands.find? (fun blocked => strContains command blocked) with
    | some blocked => .error ("Blocked command detected: " ++ blocked)
    | none =>
      match cfg.blockedCommandTokens.find? (fun tokens => regexSearch tokens command) with
      | some _ => .error "Command matches blocked pattern"
      | none =>
        if strContains command "> /dev/" || strContains command "| dd " then
          .error "Dangerous redirect or pipe detected"
        else
          .ok ()

/-! ### Glob/Grep validation and the pre-tool hook -/

/-- Model of `HookManager._validate_glob_pattern`: only the optional `path` parameter
is validated, against the blocked list. -/
def validateGlobPattern (cfg : PolicyConfig) (params : ToolParams) :
    Except String Unit :=
  match params.path with
  | none => .ok ()
  | some p =>
    if p = "" then .ok ()
    else if isBlockedPath cfg.blockedPaths (resolvePath cfg.sandboxRoot p) then
      .error ("Glob search blocked in: " ++ p)
    else .ok ()

/-- Model of `HookManager._validate_grep_search`: same shape as the glob validator. -/
def validateGrepSearch (cfg : PolicyConfig) (params : ToolParams) :
    Except String Unit :=
  match params.path with
  | none => .ok ()
  | some p =>
    if p = "" then .ok ()
    else if isBlockedPath cfg.blockedPaths (resolvePath cfg.sandboxRoot p) then
      .error ("Grep search blocked in: " ++ p)
    else .ok ()

/-- Model of `HookManager.pre_tool_hook`: route to the validator for the tool kind;
unknown tools are not validated. -/
def preToolHook (cfg : PolicyConfig) (toolName : String) (params : ToolParams) :
    Except String Unit :=
  if toolName = "Read" || toolName = "Write" || toolName = "Edit" then
    validateFileAccess cfg toolName params
  else if toolName = "Bash" then
    validateBashCommand cfg params
  else if toolName = "Glob" then
    validateGlobPattern cfg params
  else if toolName = "Grep" then
    validateGrepSearch cfg params
  else .ok ()

/-- State-passing form of `pre_tool_hook`.  The mutable state of a
`HookManager` is its `sandbox_root` and compiled pattern list (all captured
in `PolicyConfig`); the validators only read it — no assignment to `self`
or to a module global occurs anywhere in `pre_tool_hook` or the validators —
so the state after a call is the state before it. -/
def preToolHookSt (st : PolicyConfig) (toolName : String) (params : ToolParams) :
    Except String Unit × PolicyConfig :=
  (preToolHook st toolName params, st)

/-! ### Tool execution under hooks (`agents.py`, `SandboxForkAgent._execute_tool`)

A tool body performs I/O; its outcome (normal result or raised exception)
enters the model as data attached to the call.  `_execute_tool` wraps the
body in `HookContext`: `__enter__` runs `pre_tool_hook` first, and when that
raises, the body is never entered (and `__exit__` does not run either, since
`__enter__` itself raised). -/

/-- Outcome of running a tool body (the I/O part, supplied as data). -/
inductive BodyOutcome where
  | ok (result : String)
  | exn (msg : String)
deriving DecidableEq

/-- Classified outcome of `_execute_tool` as observed by
`_process_tool_calls`: normal result, `SecurityViolation`, or any other
exception. -/
inductive ToolCallOutcome where
  | success (result : String)
  | securityViolation (msg : String)
  | failure (msg : String)
deriving DecidableEq

/-- The tool names `_execute_tool` routes to an implementation; any other
name raises `ValueError` (a generic exception) after the hook passes. -/
def KNOWN_TOOLS : List String := ["Bash", "Read", "Write", "Edit", "Glob", "Grep"]

/-- Model of `SandboxForkAgent._execute_tool`: pre-tool hook, then the routed tool
body (whose I/O outcome is the `body` argument). -/
def executeTool (cfg : PolicyConfig) (toolName : String) (params : ToolParams)
    (body : BodyOutcome) : ToolCallOutcome :=
  match preToolHook cfg toolName params with
  | .error e => .securityViolation e
  | .ok () =>
    if toolName ∈ KNOWN_TOOLS then
      match body with
      | .ok s => .success s
      | .exn e => .failure e
    else
      .failure ("Unknown tool: " ++ toolName)

/-- Observable events of one `_execute_tool` call, in order. -/
inductive ToolEvent where
  | preHookRan
  | bodyRan (toolName : String)
  | postHookRan
deriving DecidableEq

/-- Event trace of `_execute_tool`: `HookContext.__enter__` runs the
pre-tool hook; when it raises, the body never runs (for `Bash` that means no
subprocess is spawned) and `__exit__` is not entered. -/
def executeToolEvents (cfg : PolicyConfig) (toolName : String)
    (params : ToolParams) (body : BodyOutcome) :
    ToolCallOutcome × List ToolEvent :=
  match preToolHook cfg toolName params with
  | .error e => (.securityViolation e, [ToolEvent.preHookRan])
  | .ok () =>
    (executeTool cfg toolName params body,
     [ToolEvent.preHookRan, ToolEvent.bodyRan toolName, ToolEvent.postHookRan])

/-! ### Processing tool calls in a turn (`_process_tool_calls`) -/

/-- A content block of a completion response: text, or a tool-use request.
The `body` field carries the I/O outcome the environment would produce for
this call's tool body. -/
inductive ContentBlock where
  | text (t : String)
  | toolUse (id toolName : String) (input : ToolParams) (body : BodyOutcome)
deriving DecidableEq

/-- A `tool_result` content block sent back to the model. -/
structure ToolResultBlock where
  toolUseId : String
  content : String
  isError : Bool
deriving DecidableEq

/-- The agent counters `self.tool_calls` and `self.errors`. -/
structure TurnMetrics where
  toolCalls : Nat
  errors : Nat
deriving DecidableEq

/-- Model of `SandboxForkAgent._process_tool_calls`: iterate over ALL content blocks;
for each `tool_use` block run `_execute_tool`; a normal result increments
`tool_calls`, a `SecurityViolation` or other exception increments `errors`
and yields an `is_error` tool result.  No count limit is applied to the
number of blocks processed. -/
def processToolCalls (cfg : PolicyConfig) :
    List ContentBlock → TurnMetrics → List ToolResultBlock × TurnMetrics
  | [], m => ([], m)
  | .text _ :: rest, m => processToolCalls cfg rest m
  | .toolUse id toolName input body :: rest, m =>
    match executeTool cfg toolName input body with
    | .success r =>
      let (rs, m') := processToolCalls cfg rest
        { m with toolCalls := m.toolCalls + 1 }
      ({ toolUseId := id, content := r, isError := false } :: rs, m')
    | .securityViolation e =>
      let (rs, m') := processToolCalls cfg rest
        { m with errors := m.errors + 1 }
      ({ toolUseId := id, content := "SECURITY VIOLATION: " ++ e,
         isError := true } :: rs, m')
    | .failure e =>
      let (rs, m') := processToolCalls cfg rest
        { m with errors := m.errors + 1 }
      ({ toolUseId := id, content := "ERROR: " ++ e, isError := true } :: rs, m')

/-- Number of `tool_use` blocks in a response content list; each one causes
exactly one `_execute_tool` invocation in `_process_tool_calls`. -/
def toolUseCount (content : List ContentBlock) : Nat :=
  content.countP (fun b => match b with | .toolUse _ _ _ _ => true | _ => false)

/-! ### The agent turn loop (`SandboxForkAgent.run`) -/

/-- Model of `response.stop_reason`. -/
inductive StopReason where
  | endTurn
  | toolUse
  | maxTokens
  | other (s : String)
deriving DecidableEq

/-- A completion response as consumed by the turn loop (a deterministic stub
service produces one per turn index). -/
structure StubResponse where
  stopReason : StopReason
  content : List ContentBlock
deriving DecidableEq

/-- Model of `SandboxForkAgent._extract_text_content`: join the text blocks. -/
def extractTextContent (blocks : List ContentBlock) : String :=
  String.intercalate "\n"
    (blocks.filterMap (fun b => match b with | .text t => some t | _ => none))

/-- The agent's counters `self.turns`, `self.tool_calls`, `self.errors`. -/
structure AgentState where
  turns : Nat := 0
  toolCalls : Nat := 0
  errors : Nat := 0
deriving DecidableEq

/-- The dictionary returned by `SandboxForkAgent.run` (the token/cost fields
are numeric metadata a stub service leaves at zero and no claim touches). -/
structure AgentRunResult where
  success : Bool
  finalResponse : String
  turns : Nat
  toolCalls : Nat
  errors : Nat
deriving DecidableEq

/-- The `for turn in range(max_turns)` loop body of `SandboxForkAgent.run`:
`remaining` counts iterations left, `turn` is the loop index.  Returns the
final agent state and `some text` when a `break` set `final_response`,
`none` when the range was exhausted (Python's `for ... else` case). -/
def agentLoop (cfg : PolicyConfig) (service : Nat → StubResponse) :
    Nat → Nat → AgentState → AgentState × Option String
  | 0, _, st => (st, none)
  | remaining + 1, turn, st =>
    let st := { st with turns := turn + 1 }
    let resp := service turn
    match resp.stopReason with
    | .endTurn => (st, some (extractTextContent resp.content))
    | .toolUse =>
      let (_, m) := processToolCalls cfg resp.content
        { toolCalls := st.toolCalls, errors := st.errors }
      agentLoop cfg service remaining (turn + 1)
        { st with toolCalls := m.toolCalls, errors := m.errors }
    | .maxTokens => (st, some (extractTextContent resp.content))
    | .other _ => (st, some (extractTextContent resp.content))

/-- Model of `SandboxForkAgent.run` with a deterministic (never-raising) stub
completion service: run the turn loop; when the loop exhausts `max_turns`
without a break, the `else` clause sets
`final_response = "Task incomplete: reached maximum turn limit"`.  The
returned `success` is the source's
`self.errors == 0 and final_response is not None`. -/
def agentRun (cfg : PolicyConfig) (service : Nat → StubResponse)
    (maxTurns : Nat) : AgentRunResult :=
  let (st, brk) := agentLoop cfg service maxTurns 0 {}
  let finalResponse : Option String :=
    match brk with
    | some t => some t
    | none => some "Task incomplete: reached maximum turn limit"
  { success := decide (st.errors = 0) && finalResponse.isSome
    finalResponse := finalResponse.getD ""
    turns := st.turns
    toolCalls := st.toolCalls
    errors := st.errors }

/-! ### The Edit tool (`SandboxForkAgent._tool_edit`)

The filesystem contribution is functional: the file's current content comes
in as `Option String` (`none` = `read_text` raises) and the written content
goes out.  `str.count` counts non-overlapping occurrences scanning left to
right, and `str.replace(old, new, 1)` replaces the leftmost occurrence;
`"x".count("")` is `len(x) + 1` and `"x".replace("", n, 1)` prepends `n`. -/

/-- The left-to-right non-overlapping scan of Python `str.count`, for a
nonempty needle.  After a match at `c :: rest` the scan resumes past the
matched text: `(c :: rest).drop needle.length = rest.drop (needle.length - 1)`
when the needle is nonempty.  The scan consumes at least one character per
step, so running it with `fuel ≥ hay.length` computes the full scan; the
fuel only makes the recursion structural. -/
def pyCountGo (needle : List Char) : Nat → List Char → Nat
  | _, [] => 0
  | 0, _ :: _ => 0
  | fuel + 1, c :: rest =>
    if needle.isPrefixOf (c :: rest) then
      1 + pyCountGo needle fuel (rest.drop (needle.length - 1))
    else
      pyCountGo needle fuel rest

/-- Python `hay.count(needle)`. -/
def pyCount (hay needle : String) : Nat :=
  if needle.toList.isEmpty then hay.toList.length + 1
  else pyCountGo needle.toList hay.toList.length hay.toList

/-- The scan of Python `str.replace(old, new, 1)` for a nonempty `old`:
replace the leftmost occurrence, keep everything else. -/
def pyReplaceGo (old new : List Char) : List Char → List Char
  | [] => []
  | c :: rest =>
    if old.isPrefixOf (c :: rest) then new ++ rest.drop (old.length - 1)
    else c :: pyReplaceGo old new rest

/-- Python `hay.replace(old, new, 1)`. -/
def pyReplaceOnce (hay old new : String) : String :=
  if old.toList.isEmpty then String.mk (new.toList ++ hay.toList)
  else String.mk (pyReplaceGo old.toList new.toList hay.toList)

/-- Model of `SandboxForkAgent._tool_edit` on a filesystem holding `fileContent` at
the target path: returns the textual tool result and the file content
afterwards.  A read failure is caught and reported textually; the file is
written only in the success branch. -/
def toolEdit (fileContent : Option String) (oldString newString : String) :
    String × Option String :=
  match fileContent with
  | none => ("ERROR: file not found", none)
  | some content =>
    if strContains content oldString = false then
      ("ERROR: old_string not found", some content)
    else
      let count := pyCount content oldString
      if count > 1 then
        ("ERROR: old_string appears " ++ toString count ++ " times, not unique",
         some content)
      else
        ("Successfully replaced 1 occurrence",
         some (pyReplaceOnce content oldString newString))

/-- Number of positions at which `pat` occurs in `content` (the
position-counting notion of "occurs n times" used to state the Edit claim;
overlapping occurrences are counted at each position). -/
def occurrenceCount (content pat : String) : Nat :=
  ((List.range (content.toList.length + 1)).filter
    (fun i => pat.toList.isPrefixOf (content.toList.drop i))).length

/-- A tool result is a textual error when it carries the `ERROR` marker the
tool implementations prepend. -/
def isErrorMsg (s : String) : Bool :=
  "ERROR".toList.isPrefixOf s.toList

/-! ### Fork orchestration (`forks.py`)

`run_forks_parallel` submits `run_single_fork` for fork numbers
`0 .. num_forks - 1` to a thread pool and collects results with
`as_completed` — an arbitrary completion order, modelled as a permutation
`completionOrder` of `range num_forks` — then sorts them by `fork_num`.
`run_single_fork` catches every exception of its agent run and converts it
into an error result, so each submitted fork yields exactly one result.
The float fields (`total_cost`, `execution_time`) are wall-clock/pricing
metadata outside the claims and are not modelled. -/

/-- The per-fork result dictionary. -/
structure ForkResult where
  forkNum : Nat
  sandboxId : String
  success : Bool
  finalResponse : String
  turns : Nat
  toolCalls : Nat
  errors : Nat
  totalTokens : Nat
  error : Option String
deriving DecidableEq

/-- The fields of the dictionary `SandboxForkAgent.run` hands to
`run_single_fork`. -/
structure AgentResultData where
  success : Bool
  finalResponse : String
  turns : Nat
  toolCalls : Nat
  errors : Nat
  totalTokens : Nat
deriving DecidableEq

/-- Model of `run_single_fork`: on a normal agent run, the agent's result dictionary
plus fork metadata (no `error` key); on any exception escaping the agent
run, the fixed error dictionary with `success=False` and the exception
text. -/
def runSingleFork (forkNum : Nat) (sandboxId : String)
    (agentOutcome : Except String AgentResultData) : ForkResult :=
  match agentOutcome with
  | .ok r =>
    { forkNum := forkNum, sandboxId := sandboxId, success := r.success
      finalResponse := r.finalResponse, turns := r.turns
      toolCalls := r.toolCalls, errors := r.errors
      totalTokens := r.totalTokens, error := none }
  | .error e =>
    { forkNum := forkNum, sandboxId := sandboxId, success := false
      finalResponse := "", turns := 0, toolCalls := 0, errors := 1
      totalTokens := 0, error := some e }

/-- The sort key relation of `results.sort(key=lambda x: x["fork_num"])`. -/
def forkLE (a b : ForkResult) : Prop := a.forkNum ≤ b.forkNum

instance : DecidableRel forkLE := fun a b => Nat.decLe a.forkNum b.forkNum

instance : IsTotal ForkResult forkLE := ⟨fun a b => Nat.le_total a.forkNum b.forkNum⟩

instance : IsTrans ForkResult forkLE := ⟨fun _ _ _ h h' => Nat.le_trans h h'⟩

/-- Strict fork-number order, used to identify the sorted list: on lists
with pairwise-distinct fork numbers it refines `forkLE`. -/
def forkLT (a b : ForkResult) : Prop := a.forkNum < b.forkNum

instance : IsAntisymm ForkResult forkLT :=
  ⟨fun _ _ h h' => absurd h' (Nat.lt_asymm h)⟩

/-- Model of `run_forks_parallel`: validate `num_forks`, run every fork (each worker
returning exactly one result even on an unhandled exception, which
`run_single_fork` converts), collect in completion order, and sort the
collected results by `fork_num`.  `completionOrder` is the order in which
`as_completed` yields the fork futures; `agentOutcomes i` is fork `i`'s
agent-run outcome (`Except.error` = an exception raised inside the
worker). -/
def runForksParallel (numForks : Nat) (sandboxIds : Nat → String)
    (agentOutcomes : Nat → Except String AgentResultData)
    (completionOrder : List Nat) : Except String (List ForkResult) :=
  if numForks < 1 then .error "num_forks must be at least 1"
  else if numForks > MAX_FORKS then
    .error "num_forks exceeds maximum"
  else
    let collected := completionOrder.map
      (fun i => runSingleFork i (sandboxIds i) (agentOutcomes i))
    .ok (List.insertionSort forkLE collected)

/-! ## Helper lemmas -/

/-- A string that contains a nonempty substring is nonempty. -/
lemma strContains_ne_empty {cmd needle : String}
    (hne : needle.toList ≠ []) (h : strContains cmd needle = true) : cmd ≠ "" := by
  intro hcmd
  subst hcmd
  have h' : containsSub needle.toList [] = true := h
  revert h'
  cases hn : needle.toList with
  | nil => exact absurd hn hne
  | cons c cs => simp [containsSub]

/-- Every entry of `BLOCKED_COMMANDS` is a nonempty string. -/
lemma blocked_commands_nonempty {blocked : String}
    (hmem : blocked ∈ BLOCKED_COMMANDS) : blocked.toList ≠ [] := by
  fin_cases hmem <;> decide

/-- Appending to an `ERROR`-marked message keeps the marker. -/
lemma isErrorMsg_append {s : String} (t : String) (h : isErrorMsg s = true) :
    isErrorMsg (s ++ t) = true := by
  rw [isErrorMsg] at h ⊢
  rw [List.isPrefixOf_iff_prefix] at h ⊢
  have hd : (s ++ t).toList = s.toList ++ t.toList := String.data_append s t
  rw [hd]
  exact h.trans (List.prefix_append _ _)

/-- For a nonempty needle and sufficient fuel, the `str.count` scan finds an
occurrence exactly when substring containment holds. -/
lemma containsSub_iff_pyCountGo_pos (needle : List Char) (hne : needle ≠ []) :
    ∀ (fuel : Nat) (l : List Char), l.length ≤ fuel →
      (containsSub needle l = true ↔ 0 < pyCountGo needle fuel l) := by
  intro fuel
  induction fuel with
  | zero =>
    intro l hl
    have hz : l = [] := List.eq_nil_of_length_eq_zero (Nat.le_zero.mp hl)
    subst hz
    simp [containsSub, pyCountGo, List.isEmpty_iff, hne]
  | succ fuel ih =>
    intro l hl
    cases l with
    | nil => simp [containsSub, pyCountGo, List.isEmpty_iff, hne]
    | cons c rest =>
      by_cases hp : needle.isPrefixOf (c :: rest) = true
      · simp [containsSub, pyCountGo, hp]
      · have hp' : needle.isPrefixOf (c :: rest) = false := by
          revert hp; cases needle.isPrefixOf (c :: rest) <;> simp
        simp only [containsSub, pyCountGo, hp', Bool.false_or, if_false,
          Bool.false_eq_true]
        exact ih rest (Nat.le_of_succ_le_succ (by simpa using hl))

/-- A zero `str.count` means the needle is not contained (`not in`). -/
lemma pyCount_eq_zero_not_contains {content oldS : String}
    (h : pyCount content oldS = 0) : strContains content oldS = false := by
  rw [pyCount] at h
  by_cases he : oldS.toList.isEmpty = true
  · rw [if_pos he] at h; omega
  · rw [if_neg he] at h
    have hne : oldS.toList ≠ [] := by
      intro h'
      exact he (by simp only [List.isEmpty_iff]; exact h')
    have hiff := containsSub_iff_pyCountGo_pos oldS.toList hne
      content.toList.length content.toList (Nat.le_refl _)
    rw [strContains]
    cases hc : containsSub oldS.toList content.toList
    · rfl
    · exfalso
      have := hiff.mp hc
      omega

/-- A positive `str.count` means the needle is contained (`in`). -/
lemma pyCount_pos_contains {content oldS : String}
    (h : 0 < pyCount content oldS) : strContains content oldS = true := by
  rw [pyCount] at h
  by_cases he : oldS.toList.isEmpty = true
  · have hz : oldS.toList = [] := by simpa [List.isEmpty_iff] using he
    rw [strContains, hz]
    cases content.toList with
    | nil => rfl
    | cons c cs => simp [containsSub, List.isPrefixOf]
  · rw [if_neg he] at h
    have hne : oldS.toList ≠ [] := fun h' =>
      he (by simp only [List.isEmpty_iff]; exact h')
    exact (containsSub_iff_pyCountGo_pos oldS.toList hne _ _ (Nat.le_refl _)).mpr h

/-- Both constructors of `runSingleFork` carry the fork number through. -/
lemma runSingleFork_forkNum (i : Nat) (sid : String)
    (o : Except String AgentResultData) : (runSingleFork i sid o).forkNum = i := by
  cases o <;> rfl

/-- Sorting the image of a permutation of `range n` under a fork-number
preserving map by fork number recovers the image of `range n` itself. -/
lemma insertionSort_map_range (f : Nat → ForkResult) (hf : ∀ i, (f i).forkNum = i)
    (n : Nat) (order : List Nat) (hperm : order.Perm (List.range n)) :
    List.insertionSort forkLE (order.map f) = (List.range n).map f := by
  have hp : (List.insertionSort forkLE (order.map f)).Perm ((List.range n).map f) :=
    (List.perm_insertionSort forkLE (order.map f)).trans (hperm.map f)
  have hs1 : List.Sorted forkLE (List.insertionSort forkLE (order.map f)) :=
    List.sorted_insertionSort forkLE (order.map f)
  have hkeys : ((List.insertionSort forkLE (order.map f)).map ForkResult.forkNum).Perm
      (List.range n) := by
    have h := hp.map ForkResult.forkNum
    rwa [List.map_map, show (ForkResult.forkNum ∘ f) = id from funext hf,
      List.map_id] at h
  have hnodup : ((List.insertionSort forkLE (order.map f)).map ForkResult.forkNum).Nodup :=
    hkeys.nodup_iff.mpr (List.nodup_range n)
  have hpairne : (List.insertionSort forkLE (order.map f)).Pairwise
      (fun a b => a.forkNum ≠ b.forkNum) := List.pairwise_map.mp hnodup
  have hs1' : List.Sorted forkLT (List.insertionSort forkLE (order.map f)) := by
    have hand := hs1.and hpairne
    exact hand.imp (fun h => Nat.lt_of_le_of_ne h.1 h.2)
  have hs2 : List.Sorted forkLT ((List.range n).map f) := by
    rw [List.Sorted, List.pairwise_map]
    exact (List.pairwise_lt_range n).imp (fun {a b} h => by
      show forkLT (f a) (f b)
      rw [forkLT, hf, hf]
      exact h)
  exact List.eq_of_perm_of_sorted hp hs1' hs2

/-- A deterministic stub completion service that requests the same single
benign tool call on every turn and never performs a terminal transition. -/
def alwaysToolUseService : Nat → StubResponse := fun _ =>
  { stopReason := .toolUse
    content := [ContentBlock.toolUse "tu1" "Bash" { command := some "ls" }
      (BodyOutcome.ok "files")] }

/-! ## Claim theorems -/

/-- C1: the claim says a path whose resolved form neither equals a blocked
entry nor has it as a parent directory is never rejected as blocked, naming
`/etc2/x` against the rule `/etc/` as the required non-example.  The code
violates this: `resolve()` strips the trailing slash of `"/etc/"`, so the
extra `str.startswith` fallback of `_is_blocked_path` naively
prefix-matches `"/etc"` against `"/etc2/x"` and blocks it.  This theorem
evaluates the embedded code at that failing input: no blocked entry is a
component-wise prefix of (equal to or parent of) the resolved `/etc2/x`,
yet `_is_blocked_path` returns `True`. -/
theorem blocked_path_string_prefix_overreach :
    (∀ b ∈ BLOCKED_PATHS.map (resolveBlockedEntry ["root"]),
       b.isPrefixOf (resolvePath [] "/etc2/x") = false)
    ∧ isBlockedPath (BLOCKED_PATHS.map (resolveBlockedEntry ["root"]))
        (resolvePath [] "/etc2/x") = true := by
  decide

/-- C2: for every `num_forks` in `[1, MAX_FORKS]`, every assignment of
agent outcomes (including raised exceptions) and every completion order of
the workers, `run_forks_parallel` returns exactly `num_forks` results whose
fork numbers are exactly `0, 1, …, num_forks - 1` in ascending order (no
duplicate or missing fork number), and every fork whose worker raised an
unhandled exception still contributes a result with `success = false`
carrying the exception text. -/
theorem runForksParallel_complete_and_sorted (numForks : Nat)
    (sandboxIds : Nat → String)
    (agentOutcomes : Nat → Except String AgentResultData) (order : List Nat)
    (h1 : 1 ≤ numForks) (h2 : numForks ≤ MAX_FORKS)
    (hperm : order.Perm (List.range numForks)) :
    ∃ results, runForksParallel numForks sandboxIds agentOutcomes order
        = Except.ok results
      ∧ results.length = numForks
      ∧ results.map ForkResult.forkNum = List.range numForks
      ∧ ∀ i, i < numForks → ∀ e, agentOutcomes i = Except.error e →
          ∃ r, r ∈ results ∧ r.forkNum = i ∧ r.success = false ∧ r.error = some e
            ∧ r.errors = 1 := by
  have hf : ∀ i, ((fun i => runSingleFork i (sandboxIds i) (agentOutcomes i)) i).forkNum = i :=
    fun i => runSingleFork_forkNum i (sandboxIds i) (agentOutcomes i)
  have hsort := insertionSort_map_range
    (fun i => runSingleFork i (sandboxIds i) (agentOutcomes i)) hf numForks order hperm
  refine ⟨(List.range numForks).map
    (fun i => runSingleFork i (sandboxIds i) (agentOutcomes i)), ?_, ?_, ?_, ?_⟩
  · rw [runForksParallel, if_neg (Nat.not_lt.mpr h1), if_neg (Nat.not_lt.mpr h2)]
    exact congrArg Except.ok hsort
  · simp
  · rw [List.map_map, show (ForkResult.forkNum ∘ fun i =>
      runSingleFork i (sandboxIds i) (agentOutcomes i)) = id from funext hf,
      List.map_id]
  · intro i hi e he
    refine ⟨runSingleFork i (sandboxIds i) (agentOutcomes i),
      List.mem_map_of_mem _ (List.mem_range.mpr hi), hf i, ?_, ?_, ?_⟩ <;>
      simp [runSingleFork, he]

/-- C2 witness: two forks, fork 1's worker raising `"boom"`, completing in
the order `[1, 0]`. -/
theorem runForksParallel_complete_and_sorted_witness :
    ∃ results, runForksParallel 2 (fun _ => "sb")
        (fun i => if i = 1 then Except.error "boom"
                  else Except.ok ⟨true, "done", 1, 0, 0, 7⟩) [1, 0] = Except.ok results
      ∧ results.length = 2
      ∧ results.map ForkResult.forkNum = List.range 2
      ∧ ∀ i, i < 2 → ∀ e,
          (if i = 1 then Except.error "boom"
           else Except.ok (⟨true, "done", 1, 0, 0, 7⟩ : AgentResultData))
            = Except.error e →
          ∃ r, r ∈ results ∧ r.forkNum = i ∧ r.success = false ∧ r.error = some e
            ∧ r.errors = 1 :=
  runForksParallel_complete_and_sorted 2 (fun _ => "sb")
    (fun i => if i = 1 then Except.error "boom"
              else Except.ok ⟨true, "done", 1, 0, 0, 7⟩)
    [1, 0] (by decide) (by decide) (by decide)

/-- C3: the claim says a run that exhausts `max_turns` without a terminal
transition returns `success = false` with `turns = max_turns`.  The code
violates the `success` part: with `max_turns = 2`, a stub service that
always requests one tool call, and every tool call succeeding, the loop
exhausts, `final_response` is set to the turn-limit message, and
`success = (errors == 0 and final_response is not None)` evaluates to
`True`.  This theorem evaluates the embedded `run` at that failing input:
`turns = 2` as claimed, but `success = true`. -/
theorem agentRun_turn_limit_reports_success :
    agentRun (defaultConfig [] ["root"]) alwaysToolUseService 2 =
      { success := true
        finalResponse := "Task incomplete: reached maximum turn limit"
        turns := 2, toolCalls := 2, errors := 0 } := by
  decide

/-- C4: a Write or Edit whose resolved target is blocked is rejected by the
pre-tool validation with an error, for every policy configuration — in
particular for both values of `strict_path_validation`, since the blocked
check precedes and does not consult the allowed-prefix check. -/
theorem blocked_path_rejected_regardless_of_strict (cfg : PolicyConfig)
    (tool fp : String) (params : ToolParams)
    (htool : tool = "Write" ∨ tool = "Edit")
    (hfp : params.file_path = some fp) (hne : fp ≠ "")
    (hblocked : isBlockedPath cfg.blockedPaths (resolvePath cfg.sandboxRoot fp) = true) :
    ∃ msg, preToolHook cfg tool params = Except.error msg := by
  rcases htool with rfl | rfl
  · refine ⟨"Access denied: " ++ fp ++ " is in a blocked system directory", ?_⟩
    have h0 : preToolHook cfg "Write" params = validateFileAccess cfg "Write" params := rfl
    rw [h0]
    simp only [validateFileAccess, hfp]
    rw [if_neg hne, if_pos hblocked]
  · refine ⟨"Access denied: " ++ fp ++ " is in a blocked system directory", ?_⟩
    have h0 : preToolHook cfg "Edit" params = validateFileAccess cfg "Edit" params := rfl
    rw [h0]
    simp only [validateFileAccess, hfp]
    rw [if_neg hne, if_pos hblocked]

/-- C4 witness: a Write under strict validation and an Edit with strict
validation disabled, both targeting `/etc/passwd`, are both rejected. -/
theorem blocked_path_rejected_regardless_of_strict_witness :
    (∃ msg, preToolHook (defaultConfig [] ["root"]) "Write"
        { file_path := some "/etc/passwd", content := some "x" }
          = Except.error msg)
    ∧ (∃ msg, preToolHook
        { defaultConfig [] ["root"] with strictPathValidation := false } "Edit"
        { file_path := some "/etc/passwd", old_string := some "a",
          new_string := some "b" } = Except.error msg) :=
  ⟨blocked_path_rejected_regardless_of_strict (defaultConfig [] ["root"])
      "Write" "/etc/passwd" _ (Or.inl rfl) rfl (by decide) (by decide),
   blocked_path_rejected_regardless_of_strict
      { defaultConfig [] ["root"] with strictPathValidation := false }
      "Edit" "/etc/passwd" _ (Or.inr rfl) rfl (by decide) (by decide)⟩

/-- C5: the claim says at most `MAX_TOOL_CALLS_PER_TURN` of a turn's
requested tool calls are executed.  The code violates this: the constant is
imported into `agents.py` but `_process_tool_calls` iterates over every
`tool_use` block with no bound.  This theorem evaluates the embedded code
on a response carrying 51 benign tool-use requests: all 51 are executed
(the `tool_calls` counter and the result list reach 51), exceeding the
limit of 50. -/
theorem processToolCalls_exceeds_turn_limit :
    (processToolCalls (defaultConfig [] ["root"])
        (List.replicate 51 (ContentBlock.toolUse "id" "Bash"
          { command := some "ls" } (BodyOutcome.ok "out"))) ⟨0, 0⟩).2.toolCalls = 51
    ∧ (processToolCalls (defaultConfig [] ["root"])
        (List.replicate 51 (ContentBlock.toolUse "id" "Bash"
          { command := some "ls" } (BodyOutcome.ok "out"))) ⟨0, 0⟩).1.length = 51
    ∧ 51 > MAX_TOOL_CALLS_PER_TURN := by
  decide

/-- C6 counterexample: the claim as stated counts occurrences by position.
In `"aaa"` the string `"aa"` occurs at two positions (more than once), yet
the Edit tool does not return an error: it silently replaces and the file
content changes from `"aaa"` to `"ba"`, because Python's `str.count` counts
non-overlapping occurrences and reports 1. -/
theorem toolEdit_overlapping_occurrences_counterexample :
    occurrenceCount "aaa" "aa" = 2
    ∧ (toolEdit (some "aaa") "aa" "b").2 = some "ba"
    ∧ isErrorMsg (toolEdit (some "aaa") "aa" "b").1 = false
    ∧ ("ba" : String) ≠ "aaa" := by
  decide

/-- C6 (amended): with occurrences counted non-overlapping left-to-right as
Python's `str.count` does, the Edit tool returns a textual error and leaves
the file content unchanged when the count is zero or more than one, and
writes exactly the single replacement when the count is exactly one. -/
theorem toolEdit_nonoverlapping_count_correct (content oldS newS : String) :
    ((pyCount content oldS = 0 ∨ 1 < pyCount content oldS) →
      isErrorMsg (toolEdit (some content) oldS newS).1 = true
      ∧ (toolEdit (some content) oldS newS).2 = some content)
    ∧ (pyCount content oldS = 1 →
      isErrorMsg (toolEdit (some content) oldS newS).1 = false
      ∧ (toolEdit (some content) oldS newS).2
          = some (pyReplaceOnce content oldS newS)) := by
  constructor
  · rintro (h0 | h2)
    · have hsc := pyCount_eq_zero_not_contains h0
      simp only [toolEdit]
      rw [if_pos hsc]
      refine ⟨?_, rfl⟩
      show isErrorMsg "ERROR: old_string not found" = true
      decide
    · have hsc : strContains content oldS = true := pyCount_pos_contains (by omega)
      have hsc' : ¬ (strContains content oldS = false) := by simp [hsc]
      simp only [toolEdit]
      rw [if_neg hsc', if_pos h2]
      refine ⟨?_, rfl⟩
      exact isErrorMsg_append _ (isErrorMsg_append _ (by decide))
  · intro h1
    have hsc : strContains content oldS = true := pyCount_pos_contains (by omega)
    have hsc' : ¬ (strContains content oldS = false) := by simp [hsc]
    have hnot : ¬ (pyCount content oldS > 1) := by omega
    simp only [toolEdit]
    rw [if_neg hsc', if_neg hnot]
    refine ⟨?_, rfl⟩
    show isErrorMsg "Successfully replaced 1 occurrence" = false
    decide

/-- C6 witness: `"ab"` occurs twice in `"abab"` (error, unchanged) and
`"world"` occurs once in `"hello world"` (replaced). -/
theorem toolEdit_nonoverlapping_count_correct_witness :
    (isErrorMsg (toolEdit (some "abab") "ab" "X").1 = true
      ∧ (toolEdit (some "abab") "ab" "X").2 = some "abab")
    ∧ (isErrorMsg (toolEdit (some "hello world") "world" "there").1 = false
      ∧ (toolEdit (some "hello world") "world" "there").2
          = some (pyReplaceOnce "hello world" "world" "there")) :=
  ⟨(toolEdit_nonoverlapping_count_correct "abab" "ab" "X").1 (Or.inr (by decide)),
   (toolEdit_nonoverlapping_count_correct "hello world" "world" "there").2 (by decide)⟩

/-- C7: a Bash command containing any `BLOCKED_COMMANDS` entry verbatim is
rejected by the pre-tool hook (`SecurityViolation`), and the tool body —
the only place a subprocess is spawned — never runs: the event trace of
`_execute_tool` contains no body event. -/
theorem blocked_command_rejected_before_subprocess (cfg : PolicyConfig)
    (params : ToolParams) (cmd blocked : String) (body : BodyOutcome)
    (hcfg : cfg.blockedCommands = BLOCKED_COMMANDS)
    (hcmd : params.command = some cmd)
    (hmem : blocked ∈ BLOCKED_COMMANDS)
    (hsub : strContains cmd blocked = true) :
    (∃ msg, (executeToolEvents cfg "Bash" params body).1
        = ToolCallOutcome.securityViolation msg)
    ∧ ToolEvent.bodyRan "Bash" ∉ (executeToolEvents cfg "Bash" params body).2 := by
  have hcmdne : cmd ≠ "" := strContains_ne_empty (blocked_commands_nonempty hmem) hsub
  have hfind : (BLOCKED_COMMANDS.find? (fun b => strContains cmd b)).isSome := by
    rw [List.find?_isSome]
    exact ⟨blocked, hmem, hsub⟩
  obtain ⟨b', hb'⟩ := Option.isSome_iff_exists.mp hfind
  have hval : validateBashCommand cfg params
      = Except.error ("Blocked command detected: " ++ b') := by
    simp only [validateBashCommand, hcmd, Option.getD_some]
    rw [if_neg hcmdne, hcfg, hb']
  have hpre : preToolHook cfg "Bash" params = validateBashCommand cfg params := rfl
  constructor
  · exact ⟨"Blocked command detected: " ++ b',
      by simp only [executeToolEvents, hpre, hval]⟩
  · simp only [executeToolEvents, hpre, hval]
    simp

/-- C7 witness: the command `"rm -rf / tmp"` contains the blocked entry
`"rm -rf /"` and is rejected with no body event. -/
theorem blocked_command_rejected_before_subprocess_witness :
    (∃ msg, (executeToolEvents (defaultConfig [] ["root"]) "Bash"
        { command := some "rm -rf / tmp" } (BodyOutcome.ok "out")).1
          = ToolCallOutcome.securityViolation msg)
    ∧ ToolEvent.bodyRan "Bash" ∉ (executeToolEvents (defaultConfig [] ["root"]) "Bash"
        { command := some "rm -rf / tmp" } (BodyOutcome.ok "out")).2 :=
  blocked_command_rejected_before_subprocess (defaultConfig [] ["root"])
    { command := some "rm -rf / tmp" } "rm -rf / tmp" "rm -rf /"
    (BodyOutcome.ok "out") rfl rfl (by decide) (by decide)

/-- C8: the pre-tool validation is a pure function of the policy
configuration and the input: a call leaves the hook state unchanged, and a
second call on the same unchanged input yields the same accept/reject
decision. -/
theorem preToolHook_idempotent_pure (st : PolicyConfig) (toolName : String)
    (params : ToolParams) :
    (preToolHookSt st toolName params).2 = st
    ∧ (preToolHookSt (preToolHookSt st toolName params).2 toolName params).1
        = (preToolHookSt st toolName params).1 :=
  ⟨rfl, rfl⟩

/-- C9: a Read, Write or Edit whose parameters lack `file_path` (or carry an
empty one) undergoes no path, blocked-prefix, allowed-prefix or size
validation: the pre-tool hook accepts it for every policy configuration,
whatever the blocked/allowed lists and the strict setting. -/
theorem missing_file_path_skips_validation (cfg : PolicyConfig) (tool : String)
    (params : ToolParams)
    (htool : tool = "Read" ∨ tool = "Write" ∨ tool = "Edit")
    (hfp : params.file_path = none ∨ params.file_path = some "") :
    preToolHook cfg tool params = .ok () := by
  rcases hfp with h | h <;> rcases htool with rfl | rfl | rfl <;>
    simp [preToolHook, validateFileAccess, h]

/-- C9 witness: a Write with no `file_path` and a Read with an empty one
pass validation even under the default (strict, fully populated) policy. -/
theorem missing_file_path_skips_validation_witness :
    preToolHook (defaultConfig [] ["root"]) "Write"
      { content := some "oversized or not, never checked" } = .ok ()
    ∧ preToolHook (defaultConfig [] ["root"]) "Read"
      { file_path := some "" } = .ok () :=
  ⟨missing_file_path_skips_validation _ _ _ (Or.inr (Or.inl rfl)) (Or.inl rfl),
   missing_file_path_skips_validation _ _ _ (Or.inl rfl) (Or.inr rfl)⟩

/-- C10: a Bash command containing `"> /dev/"` or `"| dd "` is rejected by
the bash validator even though neither string is an entry of
`BLOCKED_COMMANDS` or of `BLOCKED_COMMAND_PATTERNS`; whichever earlier
check fires, the decision is a rejection. -/
theorem dangerous_redirect_always_rejected (cfg : PolicyConfig)
    (params : ToolParams) (cmd : String)
    (hcmd : params.command = some cmd)
    (hdanger : strContains cmd "> /dev/" = true ∨ strContains cmd "| dd " = true) :
    ("> /dev/" ∉ BLOCKED_COMMANDS ∧ "| dd " ∉ BLOCKED_COMMANDS
      ∧ "> /dev/" ∉ BLOCKED_COMMAND_PATTERNS ∧ "| dd " ∉ BLOCKED_COMMAND_PATTERNS)
    ∧ ∃ msg, validateBashCommand cfg params = Except.error msg := by
  have hcmdne : cmd ≠ "" := by
    rcases hdanger with h | h
    · exact strContains_ne_empty (by decide) h
    · exact strContains_ne_empty (by decide) h
  refine ⟨by decide, ?_⟩
  simp only [validateBashCommand, hcmd, Option.getD_some]
  rw [if_neg hcmdne]
  cases h1 : cfg.blockedCommands.find? (fun blocked => strContains cmd blocked) with
  | some b => exact ⟨_, rfl⟩
  | none =>
    cases h2 : cfg.blockedCommandTokens.find? (fun tokens => regexSearch tokens cmd) with
    | some t => exact ⟨_, rfl⟩
    | none =>
      rw [if_pos]
      · exact ⟨_, rfl⟩
      · rcases hdanger with h | h <;> simp [h]

/-- C10 witness: `"echo hi > /dev/null"` is rejected under the default
configuration. -/
theorem dangerous_redirect_always_rejected_witness :
    ("> /dev/" ∉ BLOCKED_COMMANDS ∧ "| dd " ∉ BLOCKED_COMMANDS
      ∧ "> /dev/" ∉ BLOCKED_COMMAND_PATTERNS ∧ "| dd " ∉ BLOCKED_COMMAND_PATTERNS)
    ∧ ∃ msg, validateBashCommand (defaultConfig [] ["root"])
        { command := some "echo hi > /dev/null" } = Except.error msg :=
  dangerous_redirect_always_rejected (defaultConfig [] ["root"])
    { command := some "echo hi > /dev/null" } "echo hi > /dev/null" rfl
    (Or.inl (by decide))

end Dinbutler
